import Mathlib

/-!
Verification development for the pterodactyl-upload action's
"Remote File Synchronization & Filtered Cleanup Engine" (src/src/index.js).

The source file contains two revisions of the engine side by side:
the minimatch-based recursive cleanup planner (`matchAnyPattern`,
`deleteAllFilesInDirectory`) and the flat regex-based one (`isFileMatch`,
`filterFiles`, `deleteFilesInDirectory`).  Both are embedded here.

Strings are treated via their character lists.  Node's `path` helpers
(`join`, `basename`, `dirname`, `extname`) and the `minimatch` library are
external collaborators of the source; they are modelled below for the
argument shapes the engine feeds them (posix paths without `.`/`..`
segments or duplicate separators; patterns without braces, extglobs or
character classes), with each modelling choice documented at the
definition.
-/

namespace PteroUpload

/-! ## Character-list string utilities -/

/-- Split a character list at every occurrence of `sep`, keeping empty
segments, like JavaScript `s.split(sep)` (`"".split` gives `[""]`). -/
def splitOnChar (sep : Char) : List Char → List (List Char)
  | [] => [[]]
  | c :: cs =>
    let rest := splitOnChar sep cs
    if c == sep then [] :: rest
    else
      match rest with
      | [] => [[c]]
      | r :: rs => (c :: r) :: rs

/-- Models JavaScript `s.endsWith("/")`. -/
def endsWithSlash (s : String) : Bool :=
  s.data.getLast? == some '/'

/-- Models `s.replace(/^\//, "")`: drop one leading slash if present. -/
def stripLeadingSlash (s : String) : String :=
  match s.data with
  | '/' :: rest => String.mk rest
  | _ => s

/-- Models `path.posix.join(a, b)` for two segments that contain no `.` or
`..` components and no duplicate separators, as produced by the engine. -/
def posixJoin (a b : String) : String :=
  if a.data = [] then b
  else if b.data = [] then a
  else if endsWithSlash a then a ++ b
  else a ++ "/" ++ b

/-- Models JavaScript `s.toLowerCase()` for the basic-latin strings the
engine compares (equivalently `String.toLower`, re-stated on the
character list so that it evaluates by kernel reduction). -/
def lowerStr (s : String) : String :=
  String.mk (s.data.map Char.toLower)

/-- Models `path.basename(p)` (posix) for paths whose final segment is
nonempty: the part after the last separator, ignoring trailing
separators. -/
def basename (p : String) : String :=
  String.mk ((((splitOnChar '/' p.data).filter (fun seg => seg ≠ [])).getLastD []))

/-- Models `path.dirname(p)` (posix) for paths without trailing
separators: everything before the last separator, `"."` when there is no
separator, `"/"` for a single leading separator. -/
def dirname (p : String) : String :=
  if p.data.contains '/' then
    let comps := (splitOnChar '/' p.data).dropLast
    let joined := List.intercalate ['/'] comps
    if joined = [] then "/" else String.mk joined
  else "."

/-- Models `path.extname(p)`: the suffix of the final path segment from
its last dot; empty when the segment has no dot or only a leading dot. -/
def extname (p : String) : String :=
  let base := (splitOnChar '/' p.data).getLastD []
  match splitOnChar '.' base with
  | [] => ""
  | [_] => ""
  | [[], _] => ""
  | parts => String.mk ('.' :: parts.getLastD [])

/-! ## Pattern matcher (minimatch-based revision, lines 318–328) -/

/-- Glob matching of one pattern segment against one path segment:
`*` matches any run of characters, `?` exactly one, everything else
(including `.`) is literal.  This is the body of minimatch's compiled
per-segment regex (`*` ↦ `[^/]*?`, `?` ↦ `[^/]`) — segments contain no
separator, so `[^/]` is "any character" here — and also the regex built
by the other revision's `isFileMatch` (`*` ↦ `.*`, `?` ↦ `.`). -/
def globChars : List Char → List Char → Bool
  | [], s => s.isEmpty
  | '*' :: ps, s => s.tails.any fun suffix => globChars ps suffix
  | '?' :: ps, s =>
    (match s with
     | [] => false
     | _ :: cs => globChars ps cs)
  | p :: ps, s =>
    (match s with
     | [] => false
     | c :: cs => p == c && globChars ps cs)

/-- One minimatch pattern segment against one path segment.  When the
pattern segment starts with a wildcard, minimatch prefixes the compiled
regex with `(?!\.)(?=.)` (default `dot:false` options): the segment must
be nonempty and must not start with a literal dot. -/
def segMatch (pat s : List Char) : Bool :=
  match pat with
  | p :: _ =>
    if p == '*' || p == '?' then
      (match s with
       | [] => false
       | c :: _ => c != '.') && globChars pat s
    else globChars pat s
  | [] => globChars pat s

/-- Models `minimatch(s, pattern, { matchBase: true })` for patterns
without braces, extglobs, character classes or `**`: the pattern is split
on `/` and matched segment-wise; a pattern without a separator is matched
against the basename of `s` (matchBase). -/
def minimatchM (s pattern : String) : Bool :=
  let ps := splitOnChar '/' pattern.data
  let target :=
    if pattern.data.contains '/' then splitOnChar '/' s.data
    else [(splitOnChar '/' s.data).getLastD []]
  ps.length == target.length && (ps.zip target).all fun pr => segMatch pr.1 pr.2

/-- `normalizePattern` from the source: strip one trailing separator. -/
def normalizePattern (p : String) : String :=
  if endsWithSlash p then String.mk p.data.dropLast else p

/-- The per-pattern predicate inside `matchAnyPattern`: the normalized
pattern matched (matchBase) against the bare name or the relative path. -/
def matchOnePattern (name relativePath pattern : String) : Bool :=
  let normalized := normalizePattern pattern
  minimatchM name normalized || minimatchM relativePath normalized

/-- `matchAnyPattern(name, relativePath, patterns)` from the source. -/
def matchAnyPattern (name relativePath : String) (patterns : List String) : Bool :=
  patterns.any (matchOnePattern name relativePath)

/-! ## Pattern matcher (regex-based revision, lines 740–754) -/

/-- `pattern.includes('*') || pattern.includes('?')`. -/
def hasWildcard (p : String) : Bool :=
  p.data.contains '*' || p.data.contains '?'

/-- `isFileMatch(fileName, pattern)` from the source: exact equality when
the pattern has no wildcard; otherwise the pattern is turned into an
anchored case-insensitive regex with `.` escaped, `*` ↦ `.*`, `?` ↦ `.`.
The regex branch is modelled by `globChars` over lower-cased characters
(faithful for patterns built from non-regex-special characters). -/
def isFileMatch (fileName pattern : String) : Bool :=
  if hasWildcard pattern = false then fileName == pattern
  else globChars (lowerStr pattern).data (lowerStr fileName).data

/-- `filterFiles(files, filesType, filesList)` from the source: the list
of file names to DELETE. -/
def filterFiles (files : List String) (filesType : String) (filesList : List String) : List String :=
  if filesList.length == 0 then
    if filesType == "blacklist" then files else []
  else if filesType == "whitelist" then
    files.filter fun fileName => ! filesList.any fun pattern => isFileMatch fileName pattern
  else
    files.filter fun fileName => filesList.any fun pattern => isFileMatch fileName pattern

/-! ## Remote directory trees and the two cleanup planners -/

/-- One remote directory entry as the listing response presents it:
a name plus the `is_directory` flag, with a directory's own listing
attached so that the recursive planner can be expressed as a pure
function of the remote tree. -/
inductive FsEntry where
  | file (name : String)
  | dir (name : String) (children : List FsEntry)
deriving Repr

def entryName : FsEntry → String
  | .file n => n
  | .dir n _ => n

def entryIsDir : FsEntry → Bool
  | .file _ => false
  | .dir _ _ => true

/-- A `POST /files/delete` request body: `{root, files}`. -/
abbrev DeleteCall := String × List String

/-- `relativePath = path.posix.join(targetPath.replace(/^\//, ""), name)`
(line 344). -/
def relativePathOf (targetPath name : String) : String :=
  posixJoin (stripLeadingSlash targetPath) name

/-- The per-entry `shouldDelete` decision of `deleteAllFilesInDirectory`
(lines 346–355). -/
def shouldDelete (filesType : String) (filesList : List String) (name relativePath : String) : Bool :=
  if 0 < filesList.length then
    if lowerStr filesType == "whitelist" then ! matchAnyPattern name relativePath filesList
    else matchAnyPattern name relativePath filesList
  else
    if lowerStr filesType == "whitelist" then true else false

/-- The entry loop of `deleteAllFilesInDirectory` (lines 341–363) over a
directory's listing: returns the delete calls issued by recursive passes
(in order) together with the accumulated `namesToDelete` batch.  A
flagged directory is recursed into first — `targetPath + name + "/"`,
same mode and patterns — and its inner batch is flushed as that pass's
final delete call, before the directory's own name joins the parent
batch. -/
def deleteAllGo (ft : String) (fl : List String) : String → List FsEntry → List DeleteCall × List String
  | _, [] => ([], [])
  | tp, FsEntry.file name :: rest =>
    let sd := shouldDelete ft fl name (relativePathOf tp name)
    let r := deleteAllGo ft fl tp rest
    (r.1, (if sd then [name] else []) ++ r.2)
  | tp, FsEntry.dir name children :: rest =>
    let sd := shouldDelete ft fl name (relativePathOf tp name)
    let sub :=
      if sd then
        let c := deleteAllGo ft fl (tp ++ name ++ "/") children
        c.1 ++ (if 0 < c.2.length then [(tp ++ name ++ "/", c.2)] else [])
      else []
    let r := deleteAllGo ft fl tp rest
    (sub ++ r.1, (if sd then [name] else []) ++ r.2)
termination_by _ items => sizeOf items

/-- `deleteAllFilesInDirectory(serverId, targetPath, filesType, filesList)`
(lines 330–382), as the sequence of delete calls it issues for a given
remote tree: recursive passes first, then one call for `targetPath` with
the accumulated batch, skipped when the batch is empty. -/
def deleteAllFilesInDirectory (ft : String) (fl : List String) (tp : String) (items : List FsEntry) : List DeleteCall :=
  let r := deleteAllGo ft fl tp items
  r.1 ++ (if 0 < r.2.length then [(tp, r.2)] else [])

/-- `deleteFilesInDirectory(serverId, targetPath, filesType, filesList)`
(lines 782–841), as the delete calls it issues: directories are filtered
out of the listing, `filterFiles` picks the batch, and one delete call is
made unless the name list or the batch is empty. -/
def deleteFilesInDirectory (ft : String) (fl : List String) (tp : String) (items : List FsEntry) : List DeleteCall :=
  let allFileNames := (items.filter fun i => ! entryIsDir i).map entryName
  if allFileNames.length == 0 then []
  else
    let filesToDelete := filterFiles allFileNames ft fl
    if filesToDelete.length == 0 then []
    else [(tp, filesToDelete)]

/-! ## HTTP backend model, upload and archive-delete retry loops -/

/-- One backend reaction to a request: a resolved response with a status
code, or a thrown error optionally carrying `error.response.status`
(`none` models a network error without a response). -/
inductive HttpResp where
  | ok (status : Nat)
  | err (status : Option Nat)
deriving DecidableEq, Repr

/-- `response?.status == 204` on a resolved response; a thrown error is
caught and never counts as success. -/
def isResp204 : HttpResp → Bool
  | .ok s => s == 204
  | .err _ => false

/-- The `while (!uploaded && retries < 3)` loop of `uploadFile`
(lines 230–264).  `resp n` is the backend's reaction to the n-th write
attempt; both a non-204 status and a thrown error are logged and the loop
moves on.  Returns (number of write calls made, uploaded flag). -/
def uploadFileGo (resp : Nat → HttpResp) (retries : Nat) (uploaded : Bool) : Nat × Bool :=
  if uploaded = false ∧ retries < 3 then
    uploadFileGo resp (retries + 1) (isResp204 (resp retries))
  else (retries, uploaded)
termination_by 3 - retries

/-- `uploadFile(serverId, targetFile, buffer)`: the loop started with
`retries = 0`, `uploaded = false`.  The function itself never throws; its
only outcome is the final state of the loop. -/
def uploadFile (resp : Nat → HttpResp) : Nat × Bool :=
  uploadFileGo resp 0 false

/-- Outcome of the archive `deleteFile` loop. -/
inductive DelResult where
  | success
  | raised (e : Option Nat)
  | fellThrough
  | spin
deriving DecidableEq, Repr

/-- The `do … while (retries < 3)` loop of `deleteFile` (lines 288–316),
run on a fuel budget because the source loop need not terminate.  Each
iteration posts one delete call; `resp attempt` is the backend's reaction
to it.  A 204 returns; a thrown 403 with `retries < 2` increments
`retries` and `continue`s to the `while` check; any other thrown error is
re-thrown; a resolved non-204 response falls to the `while` check with
`retries` unchanged.  Returns (outcome, number of delete calls made);
`.spin` means the fuel ran out with the loop still running. -/
def deleteFileGo (resp : Nat → HttpResp) (attempt retries : Nat) : Nat → DelResult × Nat
  | 0 => (.spin, attempt)
  | fuel + 1 =>
    match resp attempt with
    | .ok s =>
      if s == 204 then (.success, attempt + 1)
      else if retries < 3 then deleteFileGo resp (attempt + 1) retries fuel
      else (.fellThrough, attempt + 1)
    | .err s =>
      if s = some 403 ∧ retries < 2 then
        if retries + 1 < 3 then deleteFileGo resp (attempt + 1) (retries + 1) fuel
        else (.fellThrough, attempt + 1)
      else (.raised s, attempt + 1)

/-- `deleteFile(serverId, targetFile)`: the loop started with
`retries = 0`. -/
def deleteFileRun (resp : Nat → HttpResp) (fuel : Nat) : DelResult × Nat :=
  deleteFileGo resp 0 0 fuel

/-! ## Archive detection, target paths, validation, driver trace -/

/-- The extension list of `isArchiveFile` (lines 219–222). -/
def archiveExtensions : List String :=
  [".zip", ".tar", ".tar.gz", ".tgz", ".rar"]

/-- `isArchiveFile(fileName)`:
`[".zip", ".tar", ".tar.gz", ".tgz", ".rar"].includes(path.extname(fileName).toLowerCase())`. -/
def isArchiveFile (fileName : String) : Bool :=
  archiveExtensions.contains (lowerStr (extname fileName))

/-- `getTargetFile(targetPath, source)` (lines 224–228). -/
def getTargetFile (targetPath source : String) : String :=
  if endsWithSlash targetPath then posixJoin targetPath (basename source)
  else targetPath

/-- What `fs.lstat(source)` reports inside `validateSourceFile`. -/
inductive LstatOutcome where
  | isFile
  | isDir
  | throws
deriving DecidableEq, Repr

/-- The `try` block of `validateSourceFile` (lines 210–213): `lstat`
throwing is an error, and a directory raises
"Source must be a file, not a directory" — from inside the `try`. -/
def validateTryBlock : LstatOutcome → Except String Unit
  | .throws => .error "ENOENT: no such file or directory"
  | .isDir => .error "Source must be a file, not a directory"
  | .isFile => .ok ()

/-- `validateSourceFile(source)` (lines 209–217): every error escaping
the `try` block — including the directory error thrown inside it — is
caught and replaced by the missing-file message. -/
def validateSourceFile (source : String) (st : LstatOutcome) : Except String Unit :=
  match validateTryBlock st with
  | .ok u => .ok u
  | .error _ => .error ("Source file " ++ source ++ " does not exist.")

/-- One remote API request, for trace-level statements. -/
inductive ApiCall where
  | write (file : String)
  | decompress (root file : String)
  | delete (root : String) (files : List String)
deriving DecidableEq, Repr

/-- The single request of `decompressFile(serverId, targetFile)`
(lines 278–286): `{root: apiRoot, file: fileName}` where `apiRoot` is the
dirname, replaced by `/` when the dirname is `.`. -/
def decompressFileCall (targetFile : String) : ApiCall :=
  let rootDir := dirname targetFile
  let fileName := basename targetFile
  let apiRoot := if rootDir = "." then "/" else rootDir
  .decompress apiRoot fileName

/-- The per-source body of `main`'s upload loop (lines 46–58): upload the
file (one write call per attempt), then, when decompression is requested
and the target file is an archive, decompress it and delete the archive
(one delete call per `deleteFile` iteration, always
`{root: "/", files: [targetFile]}`). -/
def processSource (uResp dResp : Nat → HttpResp) (fuel : Nat)
    (decompressTarget : Bool) (targetPath source : String) : List ApiCall :=
  let targetFile := getTargetFile targetPath source
  let writes := List.replicate (uploadFile uResp).1 (ApiCall.write targetFile)
  if decompressTarget && isArchiveFile targetFile then
    writes ++ [decompressFileCall targetFile] ++
      List.replicate (deleteFileRun dResp fuel).2 (ApiCall.delete "/" [targetFile])
  else writes

/-! ## Fixed backend behaviors used as concrete instantiations -/

/-- A backend that always answers HTTP 204. -/
def const204 : Nat → HttpResp := fun _ => HttpResp.ok 204

/-- A backend whose requests always fail with a thrown network error. -/
def constNetErr : Nat → HttpResp := fun _ => HttpResp.err none

/-- A backend answering a thrown HTTP 403 twice, then 204. -/
def resp403Twice : Nat → HttpResp :=
  fun n => if n < 2 then HttpResp.err (some 403) else HttpResp.ok 204

/-- A backend answering a thrown HTTP 403 forever. -/
def resp403Always : Nat → HttpResp := fun _ => HttpResp.err (some 403)

/-- A backend whose first request fails with a thrown HTTP 500. -/
def resp500 : Nat → HttpResp := fun _ => HttpResp.err (some 500)

/-- A backend that always answers HTTP 200: a resolved response (axios
only resolves 2xx by default) that is not the expected 204. -/
def alwaysOk200 : Nat → HttpResp := fun _ => HttpResp.ok 200

/-! ## Helper lemmas -/

theorem dataAppend (a b : String) : (a ++ b).data = a.data ++ b.data := by
  cases a; cases b; rfl

theorem mkData (p : String) : String.mk p.data = p := by
  cases p; rfl

theorem globChars_star (s : List Char) : globChars ['*'] s = true := by
  rw [globChars]
  rw [List.any_eq_true]
  exact ⟨[], by simp [List.mem_tails], by simp [globChars]⟩

theorem splitOnChar_single {sep : Char} {l : List Char} (h : sep ∉ l) :
    splitOnChar sep l = [l] := by
  induction l with
  | nil => rfl
  | cons c cs ih =>
    simp only [List.mem_cons, not_or] at h
    have hbeq : (c == sep) = false := by
      simp only [beq_eq_false_iff_ne, ne_eq]
      exact fun hc => h.1 (hc ▸ rfl)
    rw [splitOnChar, ih h.2]
    simp [hbeq]

theorem segMatch_star {s : List Char} (h1 : s ≠ []) (h2 : s.head? ≠ some '.') :
    segMatch ['*'] s = true := by
  obtain ⟨c, cs, rfl⟩ := List.exists_cons_of_ne_nil h1
  have hc : (c != '.') = true := by
    simp only [List.head?_cons, ne_eq, Option.some.injEq] at h2
    simpa using h2
  have hstep : segMatch ['*'] (c :: cs) = ((c != '.') && globChars ['*'] (c :: cs)) := rfl
  rw [hstep, hc, globChars_star]
  rfl

theorem minimatchM_star {n : String} (h1 : n.data ≠ []) (h2 : n.data.head? ≠ some '.')
    (h3 : '/' ∉ n.data) : minimatchM n "*" = true := by
  rw [minimatchM]
  rw [show (("*" : String).data) = ['*'] from rfl]
  rw [show ((['*'] : List Char).contains '/') = false from rfl]
  rw [splitOnChar_single h3]
  rw [show splitOnChar '/' ['*'] = [['*']] from rfl]
  simp [segMatch_star h1 h2]

theorem normalizePattern_append_slash (p : String) : normalizePattern (p ++ "/") = p := by
  have hdata : (p ++ "/").data = p.data ++ ['/'] := dataAppend p "/"
  rw [normalizePattern, endsWithSlash, hdata]
  simp only [List.getLast?_concat, beq_self_eq_true, if_true, List.dropLast_concat, mkData]

theorem normalizePattern_no_slash {p : String} (h : endsWithSlash p = false) :
    normalizePattern p = p := by
  rw [normalizePattern, h]
  rfl

/-- Closed form of the upload retry loop: success at the first 204 among
the first three attempts, exhaustion at three attempts otherwise. -/
theorem uploadFile_eq (resp : Nat → HttpResp) :
    uploadFile resp =
      if isResp204 (resp 0) then (1, true)
      else if isResp204 (resp 1) then (2, true)
      else (3, isResp204 (resp 2)) := by
  have step : ∀ r u, uploadFileGo resp r u =
      if u = false ∧ r < 3 then uploadFileGo resp (r + 1) (isResp204 (resp r))
      else (r, u) := fun r u => by rw [uploadFileGo]
  rw [uploadFile]
  rw [step 0 false]
  simp only [Nat.zero_lt_succ, and_true, if_pos rfl, Nat.zero_add]
  by_cases h0 : isResp204 (resp 0)
  · rw [h0, step 1 true]
    simp
  · rw [Bool.not_eq_true] at h0
    rw [h0, step 1 false]
    simp only [Nat.one_lt_succ_succ, and_true, if_pos rfl]
    by_cases h1 : isResp204 (resp 1)
    · rw [h1, step 2 true]
      simp [h0]
    · rw [Bool.not_eq_true] at h1
      rw [h1, step 2 false]
      simp only [Nat.lt_succ_self, and_true, if_pos rfl]
      rw [step 3 (isResp204 (resp 2))]
      simp [h0, h1]

/-- The entry loop distributes over a split of the listing. -/
theorem deleteAllGo_append (ft : String) (fl : List String) (tp : String)
    (xs ys : List FsEntry) :
    deleteAllGo ft fl tp (xs ++ ys) =
      ((deleteAllGo ft fl tp xs).1 ++ (deleteAllGo ft fl tp ys).1,
       (deleteAllGo ft fl tp xs).2 ++ (deleteAllGo ft fl tp ys).2) := by
  induction xs with
  | nil => simp [deleteAllGo]
  | cons x rest ih =>
    cases x with
    | file name =>
      simp only [List.cons_append, deleteAllGo, ih]
      simp [List.append_assoc]
    | dir name children =>
      simp only [List.cons_append, deleteAllGo, ih]
      simp [List.append_assoc]

/-- With an empty pattern list in blacklist mode the recursive planner
flags nothing and issues no delete call at any level. -/
theorem deleteAllGo_blacklist_empty (tp : String) (items : List FsEntry) :
    deleteAllGo "blacklist" [] tp items = ([], []) := by
  have hsd : ∀ name rp, shouldDelete "blacklist" [] name rp = false := by
    intro name rp
    rw [shouldDelete, if_neg (by simp)]
    decide
  induction items with
  | nil => simp [deleteAllGo]
  | cons x rest ih =>
    cases x with
    | file name => simp [deleteAllGo, hsd, ih]
    | dir name children => simp [deleteAllGo, hsd, ih]

/-- A thrown 403 with `retries < 2` retries: one more call, `retries`
bumped. -/
theorem deleteFileGo_err403 (resp : Nat → HttpResp) (a r fuel : Nat)
    (h : resp a = HttpResp.err (some 403)) (hr : r < 2) :
    deleteFileGo resp a r (fuel + 1) = deleteFileGo resp (a + 1) (r + 1) fuel := by
  have hr3 : r + 1 < 3 := by omega
  simp [deleteFileGo, h, hr, hr3]

/-- A resolved 204 returns successfully. -/
theorem deleteFileGo_ok204 (resp : Nat → HttpResp) (a r fuel : Nat)
    (h : resp a = HttpResp.ok 204) :
    deleteFileGo resp a r (fuel + 1) = (.success, a + 1) := by
  simp [deleteFileGo, h]

/-- A thrown error that is not a 403 is re-thrown at once. -/
theorem deleteFileGo_errOther (resp : Nat → HttpResp) (a r fuel : Nat) (s : Option Nat)
    (h : resp a = HttpResp.err s) (hs : s ≠ some 403) :
    deleteFileGo resp a r (fuel + 1) = (.raised s, a + 1) := by
  simp [deleteFileGo, h, hs]

/-- A thrown 403 with `retries` already at 2 is re-thrown. -/
theorem deleteFileGo_err403_cap (resp : Nat → HttpResp) (a fuel : Nat)
    (h : resp a = HttpResp.err (some 403)) :
    deleteFileGo resp a 2 (fuel + 1) = (.raised (some 403), a + 1) := by
  simp [deleteFileGo, h]

/-! ## Claims -/

/-- **C1**: uploading `build/app.zip` to target `/home/container/` with
decompression enabled, against a backend whose write and delete calls
succeed at once (HTTP 204), issues exactly one write for
`/home/container/app.zip`, then one decompress with
`{root: "/home/container", file: "app.zip"}`, then one delete with
`{root: "/", files: ["/home/container/app.zip"]}`. -/
theorem archive_upload_call_sequence (uResp dResp : Nat → HttpResp) (fuel : Nat)
    (hu : uResp 0 = HttpResp.ok 204) (hd : dResp 0 = HttpResp.ok 204) :
    processSource uResp dResp (fuel + 1) true "/home/container/" "build/app.zip" =
      [ApiCall.write "/home/container/app.zip",
       ApiCall.decompress "/home/container" "app.zip",
       ApiCall.delete "/" ["/home/container/app.zip"]] := by
  have h1 : uploadFile uResp = (1, true) := by
    rw [uploadFile_eq, hu]
    rfl
  have h2 : deleteFileRun dResp (fuel + 1) = (.success, 1) := by
    rw [deleteFileRun, deleteFileGo_ok204 dResp 0 0 fuel hd]
  simp only [processSource, h1, h2]
  decide

/-- Witness for `archive_upload_call_sequence` at an always-204 backend. -/
theorem archive_upload_call_sequence_witness :
    processSource const204 const204 1 true "/home/container/" "build/app.zip" =
      [ApiCall.write "/home/container/app.zip",
       ApiCall.decompress "/home/container" "app.zip",
       ApiCall.delete "/" ["/home/container/app.zip"]] :=
  archive_upload_call_sequence const204 const204 0 rfl rfl

/-- **C2**: the upload loop makes at most 3 write attempts; it reports
success exactly when one of the first three backend reactions is a
resolved 204, stopping right after the first such attempt; every non-204
status and every thrown error just advances to the next attempt; and when
all three attempts fail the loop ends in state `(3, false)` — the
function is total (it never raises), so non-success is visible only in
that final state. -/
theorem uploadFile_retry_policy (resp : Nat → HttpResp) :
    (uploadFile resp).1 ≤ 3 ∧
    ((uploadFile resp).2 = true ↔ ∃ i, i < 3 ∧ isResp204 (resp i) = true) ∧
    (∀ i, i < 3 → isResp204 (resp i) = true →
      (∀ j, j < i → isResp204 (resp j) = false) → uploadFile resp = (i + 1, true)) ∧
    ((∀ i, i < 3 → isResp204 (resp i) = false) → uploadFile resp = (3, false)) := by
  rw [uploadFile_eq]
  by_cases h0 : isResp204 (resp 0) = true
  · rw [if_pos h0]
    refine ⟨by omega, ⟨fun _ => ⟨0, by omega, h0⟩, fun _ => rfl⟩, ?_, ?_⟩
    · intro i hi hsi hj
      match i, hi with
      | 0, _ => rfl
      | i + 1, _ => exact absurd (hj 0 (by omega)) (by simp [h0])
    · intro hall
      exact absurd (hall 0 (by omega)) (by simp [h0])
  · rw [Bool.not_eq_true] at h0
    rw [if_neg (by simp [h0])]
    by_cases h1 : isResp204 (resp 1) = true
    · rw [if_pos h1]
      refine ⟨by omega, ⟨fun _ => ⟨1, by omega, h1⟩, fun _ => rfl⟩, ?_, ?_⟩
      · intro i hi hsi hj
        match i, hi with
        | 0, _ => exact absurd hsi (by simp [h0])
        | 1, _ => rfl
        | i + 2, _ => exact absurd (hj 1 (by omega)) (by simp [h1])
      · intro hall
        exact absurd (hall 1 (by omega)) (by simp [h1])
    · rw [Bool.not_eq_true] at h1
      rw [if_neg (by simp [h1])]
      by_cases h2 : isResp204 (resp 2) = true
      · rw [h2]
        refine ⟨by omega, ⟨fun _ => ⟨2, by omega, h2⟩, fun _ => rfl⟩, ?_, ?_⟩
        · intro i hi hsi hj
          match i, hi with
          | 0, _ => exact absurd hsi (by simp [h0])
          | 1, _ => exact absurd hsi (by simp [h1])
          | 2, _ => rfl
          | i + 3, hi => exact absurd hi (by omega)
        · intro hall
          exact absurd (hall 2 (by omega)) (by simp [h2])
      · rw [Bool.not_eq_true] at h2
        rw [h2]
        refine ⟨by omega, ?_, ?_, fun _ => rfl⟩
        · constructor
          · intro hfalse
            exact absurd hfalse (by simp)
          · rintro ⟨i, hi, hsi⟩
            match i, hi with
            | 0, _ => exact absurd hsi (by simp [h0])
            | 1, _ => exact absurd hsi (by simp [h1])
            | 2, _ => exact absurd hsi (by simp [h2])
        · intro i hi hsi hj
          match i, hi with
          | 0, _ => exact absurd hsi (by simp [h0])
          | 1, _ => exact absurd hsi (by simp [h1])
          | 2, _ => exact absurd hsi (by simp [h2])

/-- Witness for `uploadFile_retry_policy`: a backend whose calls always
throw exhausts the three attempts with no success and no exception. -/
theorem uploadFile_retry_policy_witness : uploadFile constNetErr = (3, false) :=
  (uploadFile_retry_policy constNetErr).2.2.2 (fun _ _ => rfl)

/-- **C3**: the archive delete retries only on a thrown HTTP 403, up to 3
total attempts: two thrown 403s then a 204 succeed on the third call; a
thrown error with any other status (e.g. 500) propagates immediately
after a single call; a third consecutive thrown 403 is re-thrown rather
than retried, capping the loop at 3 attempts. -/
theorem deleteFile_retry_only_403 :
    (∀ resp fuel, resp 0 = HttpResp.err (some 403) → resp 1 = HttpResp.err (some 403) →
      resp 2 = HttpResp.ok 204 → deleteFileRun resp (fuel + 3) = (.success, 3)) ∧
    (∀ resp fuel s, resp 0 = HttpResp.err s → s ≠ some 403 →
      deleteFileRun resp (fuel + 1) = (.raised s, 1)) ∧
    (∀ resp fuel, resp 0 = HttpResp.err (some 403) → resp 1 = HttpResp.err (some 403) →
      resp 2 = HttpResp.err (some 403) →
      deleteFileRun resp (fuel + 3) = (.raised (some 403), 3)) := by
  refine ⟨?_, ?_, ?_⟩
  · intro resp fuel h0 h1 h2
    show deleteFileGo resp 0 0 ((fuel + 2) + 1) = _
    rw [deleteFileGo_err403 resp 0 0 (fuel + 2) h0 (by omega)]
    show deleteFileGo resp 1 1 ((fuel + 1) + 1) = _
    rw [deleteFileGo_err403 resp 1 1 (fuel + 1) h1 (by omega)]
    rw [deleteFileGo_ok204 resp 2 2 fuel h2]
  · intro resp fuel s h0 hs
    rw [deleteFileRun, deleteFileGo_errOther resp 0 0 fuel s h0 hs]
  · intro resp fuel h0 h1 h2
    show deleteFileGo resp 0 0 ((fuel + 2) + 1) = _
    rw [deleteFileGo_err403 resp 0 0 (fuel + 2) h0 (by omega)]
    show deleteFileGo resp 1 1 ((fuel + 1) + 1) = _
    rw [deleteFileGo_err403 resp 1 1 (fuel + 1) h1 (by omega)]
    rw [deleteFileGo_err403_cap resp 2 fuel h2]

/-- Witness for `deleteFile_retry_only_403` at three fixed backends. -/
theorem deleteFile_retry_only_403_witness :
    deleteFileRun resp403Twice 3 = (.success, 3) ∧
    deleteFileRun resp500 1 = (.raised (some 500), 1) ∧
    deleteFileRun resp403Always 3 = (.raised (some 403), 3) :=
  ⟨deleteFile_retry_only_403.1 resp403Twice 0 rfl rfl rfl,
   deleteFile_retry_only_403.2.1 resp500 0 (some 500) rfl (by decide),
   deleteFile_retry_only_403.2.2 resp403Always 0 rfl rfl rfl⟩

/-- **C4 (code bug evidence)**: against a backend that always answers a
resolved HTTP 200 — a non-204, non-error response — the delete loop never
terminates: `retries` is incremented only in the 403 branch and is capped
at 2, so the `while (retries < 3)` guard can never become false, and the
loop keeps issuing delete calls.  Here it consumes any fuel `n`, making
`n` calls, instead of falling through after at most 3 attempts as the
claim states. -/
theorem deleteFile_loops_forever_on_200 (n : Nat) :
    deleteFileRun alwaysOk200 n = (.spin, n) := by
  have key : ∀ f a, deleteFileGo alwaysOk200 a 0 f = (.spin, a + f) := by
    intro f
    induction f with
    | zero =>
      intro a
      simp [deleteFileGo]
    | succ m ih =>
      intro a
      have step : deleteFileGo alwaysOk200 a 0 (m + 1) = deleteFileGo alwaysOk200 (a + 1) 0 m := by
        simp [deleteFileGo, alwaysOk200]
      rw [step, ih (a + 1)]
      have : a + 1 + m = a + (m + 1) := by omega
      rw [this]
  simpa using key n 0

/-- **C5 (counterexample)**: with an empty pattern list in blacklist mode
on the non-empty listing `[dir "sub", file "a"]`, the flat planner's
deletion batch is `["a"]` — the directory entry name `"sub"` is not in it
although it is a top-level entry name — and the recursive planner issues
no delete call at all; neither batch equals the full top-level entry-name
set `["sub", "a"]`. -/
theorem cleanup_empty_blacklist_counterexample :
    deleteFilesInDirectory "blacklist" [] "/d/"
        [FsEntry.dir "sub" [], FsEntry.file "a"] = [("/d/", ["a"])] ∧
    (("sub" : String) ∈ (["a"] : List String) → False) ∧
    [FsEntry.dir "sub" [], FsEntry.file "a"].map entryName = ["sub", "a"] ∧
    deleteAllFilesInDirectory "blacklist" [] "/d/" [FsEntry.file "a"] = [] := by
  refine ⟨by decide, by decide, by decide, ?_⟩
  simp [deleteAllFilesInDirectory, deleteAllGo_blacklist_empty]

/-- **C5 (amended)**: with an empty pattern list in blacklist mode, the
flat planner's deletion batch is exactly the list of top-level
NON-directory entry names — issued as one call, or no call when there are
no file entries — while the recursive minimatch-based planner flags
nothing and issues no delete call. -/
theorem cleanup_empty_blacklist (tp : String) (items : List FsEntry) :
    deleteFilesInDirectory "blacklist" [] tp items =
      (if ((items.filter fun i => ! entryIsDir i).map entryName).length == 0 then []
       else [(tp, (items.filter fun i => ! entryIsDir i).map entryName)]) ∧
    deleteAllFilesInDirectory "blacklist" [] tp items = [] := by
  constructor
  · by_cases h : (((items.filter fun i => ! entryIsDir i).map entryName).length == 0) = true
    · simp [deleteFilesInDirectory, filterFiles, h]
    · rw [Bool.not_eq_true] at h
      simp [deleteFilesInDirectory, filterFiles, h]
  · simp [deleteAllFilesInDirectory, deleteAllGo_blacklist_empty]

/-- **C6**: with a non-empty pattern list the recursive planner's
per-entry decision is `anyMatch` (some pattern matches the name or the
relative path) in blacklist mode and `!anyMatch` in whitelist mode; and
the flat planner on listing `[keep.txt, drop.txt]` in whitelist mode with
pattern `keep.txt` deletes exactly `drop.txt`. -/
theorem cleanup_decision_rule (fl : List String) (name rp : String) (h : fl ≠ []) :
    shouldDelete "blacklist" fl name rp = matchAnyPattern name rp fl ∧
    shouldDelete "whitelist" fl name rp = ! matchAnyPattern name rp fl ∧
    deleteFilesInDirectory "whitelist" ["keep.txt"] "/d/"
      [FsEntry.file "keep.txt", FsEntry.file "drop.txt"] = [("/d/", ["drop.txt"])] := by
  have hl : 0 < fl.length := List.length_pos.mpr h
  refine ⟨?_, ?_, by decide⟩
  · rw [shouldDelete, if_pos hl, if_neg (by decide)]
  · rw [shouldDelete, if_pos hl, if_pos (by decide)]

/-- Witness for `cleanup_decision_rule` at a singleton pattern list. -/
theorem cleanup_decision_rule_witness :
    shouldDelete "blacklist" ["keep.txt"] "a.txt" "d/a.txt"
        = matchAnyPattern "a.txt" "d/a.txt" ["keep.txt"] ∧
    shouldDelete "whitelist" ["keep.txt"] "a.txt" "d/a.txt"
        = ! matchAnyPattern "a.txt" "d/a.txt" ["keep.txt"] ∧
    deleteFilesInDirectory "whitelist" ["keep.txt"] "/d/"
      [FsEntry.file "keep.txt", FsEntry.file "drop.txt"] = [("/d/", ["drop.txt"])] :=
  cleanup_decision_rule ["keep.txt"] "a.txt" "d/a.txt" (by decide)

/-- **C7 (code bug evidence)**: `isArchiveFile` tests
`path.extname(fileName)`, which yields only the last dotted suffix, so
`app.tar.gz` (extname `.gz`) is NOT treated as an archive even though
`".tar.gz"` sits — unreachably — in the function's own extension list;
the other listed extensions are detected, case-insensitively. -/
theorem isArchiveFile_misses_tar_gz :
    isArchiveFile "app.tar.gz" = false ∧
    (".tar.gz" : String) ∈ archiveExtensions ∧
    extname "app.tar.gz" = ".gz" ∧
    isArchiveFile "app.zip" = true ∧
    isArchiveFile "APP.ZIP" = true ∧
    isArchiveFile "app.tgz" = true ∧
    isArchiveFile "backup.rar" = true ∧
    isArchiveFile "data.tar" = true := by
  decide

/-- **C8**: whenever a directory entry is flagged `shouldDelete`, the
recursive planner's call trace contains — before the parent directory's
own delete call, which is flushed last — exactly the calls of a full
planning pass over that subdirectory at path `targetPath ++ name ++ "/"`
with the same mode and patterns, and the entry's name is in the parent's
batch. -/
theorem planner_recurses_depth_first (ft : String) (fl : List String) (tp name : String)
    (children pre post : List FsEntry)
    (h : shouldDelete ft fl name (relativePathOf tp name) = true) :
    ∃ before after batch,
      deleteAllFilesInDirectory ft fl tp (pre ++ FsEntry.dir name children :: post) =
        before ++ deleteAllFilesInDirectory ft fl (tp ++ name ++ "/") children ++
          after ++ [(tp, batch)] ∧
      name ∈ batch := by
  have hcons : deleteAllGo ft fl tp (FsEntry.dir name children :: post) =
      (deleteAllFilesInDirectory ft fl (tp ++ name ++ "/") children ++
        (deleteAllGo ft fl tp post).1,
       name :: (deleteAllGo ft fl tp post).2) := by
    simp only [deleteAllGo, deleteAllFilesInDirectory, h, if_true]
    simp
  refine ⟨(deleteAllGo ft fl tp pre).1, (deleteAllGo ft fl tp post).1,
    (deleteAllGo ft fl tp pre).2 ++ name :: (deleteAllGo ft fl tp post).2, ?_, by simp⟩
  rw [deleteAllFilesInDirectory, deleteAllGo_append, hcons]
  rw [if_pos (by simp)]
  simp [List.append_assoc]

/-- Witness for `planner_recurses_depth_first` at a one-directory
listing. -/
theorem planner_recurses_depth_first_witness :
    shouldDelete "blacklist" ["sub"] "sub" (relativePathOf "/d/" "sub") = true ∧
    ∃ before after batch,
      deleteAllFilesInDirectory "blacklist" ["sub"] "/d/"
          ([] ++ FsEntry.dir "sub" [FsEntry.file "c"] :: []) =
        before ++ deleteAllFilesInDirectory "blacklist" ["sub"] ("/d/" ++ "sub" ++ "/")
          [FsEntry.file "c"] ++ after ++ [("/d/", batch)] ∧
      ("sub" : String) ∈ batch :=
  ⟨by decide, planner_recurses_depth_first "blacklist" ["sub"] "/d/" "sub"
      [FsEntry.file "c"] [] [] (by decide)⟩

/-- **C9 (counterexample)**: the minimatch-based matcher does not match
the dotfile name `.env` against pattern `*` — minimatch with its default
`dot:false` compiles `*` to `(?!\.)(?=.)[^/]*?` — so the law
"`matches(n, n, "*")` is true for every file name `n`" fails as stated. -/
theorem star_misses_dotfile : matchOnePattern ".env" ".env" "*" = false := by
  decide

/-- **C9 (amended)**: the `*` law holds for every nonempty,
separator-free file name that does not begin with a dot; and appending
one trailing separator to a pattern that does not already end in one
never changes the match result, for any name and relative path. -/
theorem pattern_matcher_laws (n name rp p : String)
    (h1 : n.data ≠ []) (h2 : n.data.head? ≠ some '.') (h3 : '/' ∉ n.data)
    (h4 : endsWithSlash p = false) :
    matchOnePattern n n "*" = true ∧
    matchOnePattern name rp (p ++ "/") = matchOnePattern name rp p := by
  constructor
  · simp only [matchOnePattern]
    rw [show normalizePattern "*" = "*" from rfl]
    rw [minimatchM_star h1 h2 h3]
    rfl
  · simp only [matchOnePattern]
    rw [normalizePattern_append_slash, normalizePattern_no_slash h4]

/-- Witness for `pattern_matcher_laws` at name `env`, pattern `logs`. -/
theorem pattern_matcher_laws_witness :
    matchOnePattern "env" "env" "*" = true ∧
    matchOnePattern "a.txt" "dir/a.txt" ("logs" ++ "/") =
      matchOnePattern "a.txt" "dir/a.txt" "logs" :=
  pattern_matcher_laws "env" "a.txt" "dir/a.txt" "logs"
    (by decide) (by decide) (by decide) (by decide)

/-- **C10**: whenever validation fails — the path missing (`lstat`
throws) or the path naming a directory — `validateSourceFile` reports the
same `Source file <path> does not exist.` error: the directory-specific
error thrown inside the `try` block is caught by the `catch` and
replaced, so a directory source is reported as a missing file. -/
theorem validateSourceFile_masks_directory_error (source : String) (st : LstatOutcome)
    (h : st ≠ LstatOutcome.isFile) :
    validateSourceFile source st =
      .error ("Source file " ++ source ++ " does not exist.") ∧
    validateTryBlock LstatOutcome.isDir =
      .error "Source must be a file, not a directory" := by
  refine ⟨?_, rfl⟩
  cases st with
  | isFile => exact absurd rfl h
  | isDir => rfl
  | throws => rfl

/-- Witness for `validateSourceFile_masks_directory_error` at a directory
source. -/
theorem validateSourceFile_masks_directory_error_witness :
    validateSourceFile "build/app.zip" LstatOutcome.isDir =
      .error ("Source file " ++ "build/app.zip" ++ " does not exist.") ∧
    validateTryBlock LstatOutcome.isDir =
      .error "Source must be a file, not a directory" :=
  validateSourceFile_masks_directory_error "build/app.zip" LstatOutcome.isDir (by decide)

end PteroUpload
